import Mathlib

/-!
# shuffledns runner: input staging

A shallow embedding of `pkg/runner/runner.go` (`New`, `Close`, `findBinary`,
`runEnumeration`, `processDomain`, `processSubdomains`) over an explicit model of
the process environment (file system, standard input, open descriptors, fatal log).
-/

namespace Shuffledns

/-! ## Environment -/

/-- A node of the file system: a directory, or a regular file with its bytes. -/
inductive Node where
  | dir
  | file (data : String)
deriving DecidableEq

/-- What a `bufio.Scanner` with the default line splitting delivers for an input
file: the texts returned by successive `Scan()`/`Text()` calls, and the error
(read failure, over-long line) after which `Scan()` returns false, if any.
`err = none` means the scan stopped at end of file. -/
structure Scanner where
  tokens : List String
  err : Option String
deriving DecidableEq

/-- Go `error` values built or met by the runner. -/
inductive Error where
  | msg (text : String)
  | notExist (path : String)
  | exist (path : String)
  | isDir (path : String)
deriving DecidableEq

/-- Ghost record of the staging strategies entered, in execution order:
`bruteforce` is an entry into `processDomain`, `capture` an entry into the
stdin branch of `processSubdomains`, `reference` into its other branch. -/
inductive Strategy where
  | bruteforce
  | capture
  | reference
deriving DecidableEq

/-- The process environment the runner acts on. -/
structure World where
  /-- file system: path to node -/
  fs : String → Option Node
  /-- line-scanner view of the readable input files, by path -/
  scans : String → Scanner
  /-- bytes still unread on standard input -/
  stdin : String
  /-- value of `os.TempDir()` -/
  tmp : String
  /-- counter behind the unique names (`xid.New()`, the `TempDir` suffix) -/
  nextId : Nat
  /-- paths of the descriptors currently open -/
  handles : List String
  /-- messages passed to `gologger.Fatalf`, oldest first -/
  log : List String
  /-- ghost: `os.Stat` probes made, oldest first -/
  probed : List String
  /-- ghost: staging strategies entered, oldest first -/
  calls : List Strategy

/-- Modelled from the spec: the declaration of `Options` is missing from the source.
The fields are the ones the source reads; `Wordlist` and `SubdomainsList` hold the
configured path, and the empty string when not configured (spec section 3:
"true when a wordlist path is configured"). -/
structure Options where
  Stdin : Bool
  Wordlist : String
  SubdomainsList : String
  Domain : String
  MassdnsPath : String
  Directory : String
deriving DecidableEq

/-- Runner is a client for running the enumeration process. `options` is the
value behind the `*Options` pointer. -/
structure Runner where
  tempDir : String
  options : Options
deriving DecidableEq

/-! ## Library calls -/

/-- Text of an error as `%s` prints it. -/
def Error.text : Error → String
  | .msg t => t
  | .notExist p => p ++ ": no such file or directory"
  | .exist p => p ++ ": file exists"
  | .isDir p => p ++ ": is a directory"

/-- The `os.IsNotExist` test. -/
def osIsNotExist : Option Error → Bool
  | some (.notExist _) => true
  | _ => false

/-- The error of `os.Stat(path)`: nil when the path exists (as a file or a
directory), a not-exist error otherwise. The probe is recorded. -/
def osStat (path : String) (w : World) : Option Error × World :=
  (if (w.fs path).isSome then none else some (.notExist path),
   { w with probed := w.probed ++ [path] })

/-- The directory part of a path: everything before its last slash. -/
def dirOf (path : String) : String :=
  String.mk ((path.data.reverse.dropWhile (fun c => c != '/')).drop 1).reverse

/-- Whether `d` can hold a new entry: it is an existing directory (the empty
directory part stands for the root or the working directory). -/
def dirExists (w : World) (d : String) : Bool :=
  decide (d = "") || decide (w.fs d = some Node.dir)

/-- `path.Join(dir, name)` for operands that are already clean: an empty first
element is ignored, otherwise the two are joined by a slash. -/
def pathJoin (dir name : String) : String :=
  if dir = "" then name else dir ++ "/" ++ name

/-- `xid.New().String()`: a name never handed out before. -/
def xidNew (w : World) : String × World :=
  ("xid" ++ toString w.nextId, { w with nextId := w.nextId + 1 })

/-- `ioutil.TempDir(dir, pfx)`: makes a new directory `pfx` followed by a fresh
suffix under `dir` (under `os.TempDir()` when `dir` is empty). -/
def ioutilTempDir (dir pfx : String) (w : World) : Option String × Option Error × World :=
  let base := if dir = "" then w.tmp else dir
  let name := base ++ "/" ++ pfx ++ toString w.nextId
  let w1 := { w with nextId := w.nextId + 1 }
  if w.fs base = some Node.dir then
    if (w.fs name).isSome then (none, some (.exist name), w1)
    else (some name, none, { w1 with fs := fun p => if p = name then some Node.dir else w.fs p })
  else (none, some (.notExist base), w1)

/-- Whether `p` is `dir` itself or lies below it. -/
def within (dir p : String) : Bool :=
  decide (p = dir) || (dir ++ "/").data.isPrefixOf p.data

/-- `os.RemoveAll(path)`: removes `path` and everything below it; the empty path
and a missing path are no-ops. -/
def osRemoveAll (path : String) (w : World) : World :=
  if path = "" then w
  else { w with fs := fun p => if within path p then none else w.fs p }

/-- `os.Create(path)`: creates or truncates the regular file and opens it. Fails
on a directory and when the directory part does not exist. -/
def osCreate (path : String) (w : World) : Option Error × World :=
  if w.fs path = some Node.dir then (some (.isDir path), w)
  else if dirExists w (dirOf path) then
    (none, { w with fs := fun p => if p = path then some (Node.file "") else w.fs p,
                    handles := path :: w.handles })
  else (some (.notExist path), w)

/-- `os.Open(path)` followed by `bufio.NewScanner`: fails when nothing is at
`path`; a directory opens but its first read fails. -/
def osOpen (path : String) (w : World) : Option Scanner × Option Error × World :=
  if w.fs path = none then (none, some (.notExist path), w)
  else if w.fs path = some Node.dir then
    (some ⟨[], some (path ++ ": is a directory")⟩, none, { w with handles := path :: w.handles })
  else (some (w.scans path), none, { w with handles := path :: w.handles })

/-- Arrival of bytes in the file open at `path` (a flush of the buffered writer,
or an `io.Copy`): they are appended to its data. -/
def fileWrite (path bytes : String) (w : World) : World :=
  match w.fs path with
  | some (Node.file d) =>
    { w with fs := fun p => if p = path then some (Node.file (d ++ bytes)) else w.fs p }
  | _ => w

/-- The `Close()` of the descriptor opened on `path`. -/
def fileClose (path : String) (w : World) : World :=
  { w with handles := w.handles.erase path }

/-- `gologger.Fatalf(...)`: the message is recorded and control continues with the
statement after the call (a `file.Close()`, a `return`), as the source is written;
the spec, section 9, reads the call as "logging a fatal message and returning".
The library itself ends the process once the message is logged, so an environment
with a recorded message is one past which the real process does not run. -/
def fatalf (message : String) (w : World) : World :=
  { w with log := w.log ++ [message] }

/-- Records the entry into a staging strategy (ghost). -/
def enter (s : Strategy) (w : World) : World :=
  { w with calls := w.calls ++ [s] }

/-! ## The runner -/

/-- The pre-defined paths searched by `findBinary`, in order. -/
def locations : List String :=
  ["/usr/bin/massdns", "/usr/local/bin/massdns"]

/-- The `for _, file := range locations` loop of `findBinary`. -/
def findBinaryLoop : List String → World → String × World
  | [], w => ("", w)
  | file :: rest, w =>
    let (err, w1) := osStat file w
    if !osIsNotExist err then (file, w1) else findBinaryLoop rest w1

/-- The function findBinary searches for massdns binary in various pre-defined paths. -/
def findBinary (w : World) : String × World :=
  findBinaryLoop locations w

/-- Result of `New`: the returned pair, the caller's `Options` after the call
(`New` writes through the pointer), and the environment. -/
structure NewResult where
  runner : Option Runner
  err : Option Error
  options : Options
  world : World

/-- The error built by `errors.New` in `New`. -/
def errNoMassdns : Error :=
  Error.msg "could not find massdns binary"

/-- The tail of `New`: creates the temporary directory that will be removed at the
end of enumeration process, and builds the runner. -/
def newWorkspace (options : Options) (w : World) : NewResult :=
  match ioutilTempDir options.Directory "shuffledns" w with
  | (some dir, _, w1) => ⟨some ⟨dir, options⟩, none, options, w1⟩
  | (none, err, w1) => ⟨none, err, options, w1⟩

/-- The function New creates a new client for running enumeration process. -/
def New (options : Options) (w : World) : NewResult :=
  -- Setup the massdns binary path if none was given.
  -- If no valid path found, return an error
  if options.MassdnsPath = "" then
    let (file, w1) := findBinary w
    let options1 := { options with MassdnsPath := file }
    if options1.MassdnsPath = "" then ⟨none, some errNoMassdns, options1, w1⟩
    else newWorkspace options1 w1
  else newWorkspace options w

/-- The method Close releases all the resources and cleans up. -/
def Close (r : Runner) (w : World) : World :=
  osRemoveAll r.tempDir w

/-- The scanning loop of `processDomain` over the texts the scanner delivers;
`writer` is the content of the buffered writer. -/
def scanLoop (domain : String) : List String → String → String
  | [], writer => writer
  | text :: rest, writer =>
    if text = "" then scanLoop domain rest writer
    else scanLoop domain rest (writer ++ (text ++ "." ++ domain))

/-- The method processDomain processes the bruteforce for a domain using a wordlist.
The source creates the file at `resolverFile`, a name it never declares; it is read
as the `resolveFile` computed on the line before (spec section 9). -/
def processDomain (r : Runner) (w : World) : World :=
  let w := enter Strategy.bruteforce w
  let (name, w) := xidNew w
  let resolveFile := pathJoin r.tempDir name
  match osCreate resolveFile w with
  | (some err, w) =>
    fatalf ("Could not create bruteforce list (" ++ r.tempDir ++ "): " ++ err.text ++ "\n") w
  | (none, w) =>
    -- Read the input wordlist for bruteforce generation
    match osOpen r.options.Wordlist w with
    | (some scanner, _, w) =>
      -- Create permutation for domain with wordlist
      let writer := scanLoop r.options.Domain scanner.tokens ""
      let w := fileWrite resolveFile writer w
      let w := fileClose r.options.Wordlist w
      fileClose resolveFile w
    | (none, err, w) =>
      let w := fatalf ("Could not read bruteforce wordlist (" ++ r.options.Wordlist ++ "): "
        ++ (match err with | some e => e.text | none => "") ++ "\n") w
      fileClose resolveFile w

/-- The method processSubdomains processes the resolving for a list of subdomains.
Returns the final value of its local `resolveFile` next to the environment.
`resolverFile` and `tempDir` are read as `resolveFile` and `r.tempDir`. -/
def processSubdomains (r : Runner) (w : World) : String × World :=
  -- If there is stdin, write the resolution list to the file
  if r.options.Stdin then
    let w := enter Strategy.capture w
    let (name, w) := xidNew w
    let resolveFile := pathJoin r.tempDir name
    match osCreate resolveFile w with
    | (some err, w) =>
      (resolveFile,
        fatalf ("Could not create resolution list (" ++ r.tempDir ++ "): " ++ err.text ++ "\n") w)
    | (none, w) =>
      let w := { fileWrite resolveFile w.stdin w with stdin := "" }
      (resolveFile, fileClose resolveFile w)
  else
    -- Use the file if user has provided one
    let w := enter Strategy.reference w
    (r.options.SubdomainsList, w)

/-- The truth test of `if r.options.Wordlist` and `if r.options.SubdomainsList`:
the path is configured. -/
def configured (path : String) : Bool :=
  decide (path ≠ "")

/-- The method runEnumeration sets up the input layer for giving input to massdns
binary. Its body has no return statement and builds no error value: the result
is nil. -/
def runEnumeration (r : Runner) (w : World) : Option Error × World :=
  -- Handle stdin input
  let w :=
    if r.options.Stdin then
      -- Is the stdin input a domain for bruteforce
      let w := if configured r.options.Wordlist then processDomain r w else w
      -- Write the input from stdin to a file and resolve it.
      (processSubdomains r w).2
    else w
  -- Handle a list of subdomains to resolve
  let w := if configured r.options.SubdomainsList then (processSubdomains r w).2 else w
  -- Handle a domain to bruteforce with wordlist
  let w := if configured r.options.Wordlist then processDomain r w else w
  (none, w)

/-- A staging operation run on a runner. -/
inductive Op where
  | domain
  | subdomains
deriving DecidableEq

/-- Runs a sequence of staging operations, in order. -/
def runOps (r : Runner) : List Op → World → World
  | [], w => w
  | Op.domain :: rest, w => runOps r rest (processDomain r w)
  | Op.subdomains :: rest, w => runOps r rest (processSubdomains r w).2

/-! ## Sample environments -/

/-- A machine with `/tmp`, a workspace `/tmp/shuffledns0`, the three-line wordlist
`/w.txt`, two hostnames waiting on standard input, and nothing else. -/
def sampleWorld : World where
  fs := fun p =>
    if p = "/tmp" then some Node.dir
    else if p = "/tmp/shuffledns0" then some Node.dir
    else if p = "/w.txt" then some (Node.file "dev\n\nwww\n")
    else none
  scans := fun p => if p = "/w.txt" then ⟨["dev", "", "www"], none⟩ else ⟨[], none⟩
  stdin := "a.example.com\nb.example.com\n"
  tmp := "/tmp"
  nextId := 1
  handles := []
  log := []
  probed := []
  calls := []

/-- Options of a bruteforce run over `/w.txt`. -/
def sampleOptions : Options where
  Stdin := false
  Wordlist := "/w.txt"
  SubdomainsList := ""
  Domain := "example.com"
  MassdnsPath := "/usr/bin/massdns"
  Directory := "/tmp"

/-- A runner whose workspace is `/tmp/shuffledns0`. -/
def sampleRunner : Runner :=
  ⟨"/tmp/shuffledns0", sampleOptions⟩

/-- The environment `w` with the scanner view of the file at `path` set to `sc`. -/
def withScan (w : World) (path : String) (sc : Scanner) : World :=
  { w with scans := fun p => if p = path then sc else w.scans p }

/-- The sample machine, with a wordlist whose scan delivers `dev` and then stops
on an over-long second line. -/
def brokenWorld : World :=
  withScan sampleWorld "/w.txt" ⟨["dev"], some "bufio.Scanner: token too long"⟩

/-- The sample machine with the bytes of `/w.txt` replaced: a line of one space, an
empty line and `dev`. -/
def spacesFiles : World :=
  { sampleWorld with
    fs := fun p => if p = "/w.txt" then some (Node.file " \n\ndev\n") else sampleWorld.fs p }

/-- The machine `spacesFiles` with the scanner view of those three lines. -/
def spacesWorld : World :=
  withScan spacesFiles "/w.txt" ⟨[" ", "", "dev"], none⟩

/-- A bruteforce runner whose wordlist `/missing.txt` does not exist. -/
def missingRunner : Runner :=
  ⟨"/tmp/shuffledns0", { sampleOptions with Wordlist := "/missing.txt" }⟩

/-- The sample machine with a massdns binary at the second pre-defined path. -/
def massdnsWorld : World :=
  { sampleWorld with
    fs := fun p => if p = "/usr/local/bin/massdns" then some (Node.file "") else sampleWorld.fs p }

/-- Standard input and a wordlist, no subdomain list. -/
def stdinWordlistRunner : Runner :=
  ⟨"/tmp/shuffledns0", { sampleOptions with Stdin := true }⟩

/-- Standard input and a subdomain list, no wordlist. -/
def stdinListRunner : Runner :=
  ⟨"/tmp/shuffledns0",
    { sampleOptions with Stdin := true, Wordlist := "", SubdomainsList := "/tmp/known.txt" }⟩

/-- A subdomain list only. -/
def listRunner : Runner :=
  ⟨"/tmp/shuffledns0", { sampleOptions with Wordlist := "", SubdomainsList := "/tmp/known.txt" }⟩

/-- No standard input, no wordlist, no subdomain list. -/
def idleRunner : Runner :=
  ⟨"/tmp/shuffledns0", { sampleOptions with Wordlist := "" }⟩

/-! ## Strategy record -/

@[simp] theorem fileWrite_calls (path bytes : String) (w : World) :
    (fileWrite path bytes w).calls = w.calls := by
  unfold fileWrite; split <;> rfl

@[simp] theorem osCreate_calls (path : String) (w : World) :
    (osCreate path w).2.calls = w.calls := by
  unfold osCreate; split_ifs <;> rfl

@[simp] theorem osOpen_calls (path : String) (w : World) :
    (osOpen path w).2.2.calls = w.calls := by
  unfold osOpen; split_ifs <;> rfl

theorem processDomain_calls (r : Runner) (w : World) :
    (processDomain r w).calls = w.calls ++ [Strategy.bruteforce] := by
  unfold processDomain
  simp only [xidNew, enter]
  generalize hc : osCreate _ _ = rc
  obtain ⟨e, w1⟩ := rc
  have h1 : w1.calls = w.calls ++ [Strategy.bruteforce] := by
    have := congrArg (fun x => x.2.calls) hc
    simpa using this.symm
  cases e with
  | some err => simp [fatalf, h1]
  | none =>
    simp only []
    generalize ho : osOpen _ _ = ro
    obtain ⟨sc, e2, w2⟩ := ro
    have h2 : w2.calls = w1.calls := by
      have := congrArg (fun x => x.2.2.calls) ho
      simpa using this.symm
    cases sc <;> simp [fatalf, fileClose, h1, h2]

theorem processSubdomains_calls (r : Runner) (w : World) :
    (processSubdomains r w).2.calls
      = w.calls ++ [if r.options.Stdin then Strategy.capture else Strategy.reference] := by
  unfold processSubdomains
  by_cases hs : r.options.Stdin = true
  · simp only [hs, if_true, xidNew, enter]
    generalize hc : osCreate _ _ = rc
    obtain ⟨e, w1⟩ := rc
    have h1 : w1.calls = w.calls ++ [Strategy.capture] := by
      have := congrArg (fun x => x.2.calls) hc
      simpa using this.symm
    cases e <;> simp [fatalf, fileClose, h1]
  · simp [hs, enter]

theorem runEnumeration_calls (r : Runner) (w : World) :
    (runEnumeration r w).2.calls
      = w.calls
        ++ (if r.options.Stdin then
              (if r.options.Wordlist ≠ "" then [Strategy.bruteforce] else [])
                ++ [Strategy.capture]
            else [])
        ++ (if r.options.SubdomainsList ≠ "" then
              [if r.options.Stdin then Strategy.capture else Strategy.reference]
            else [])
        ++ (if r.options.Wordlist ≠ "" then [Strategy.bruteforce] else []) := by
  unfold runEnumeration
  by_cases hs : r.options.Stdin = true <;> by_cases hw : r.options.Wordlist = ""
    <;> by_cases hl : r.options.SubdomainsList = ""
    <;> simp [hs, hw, hl, configured, processDomain_calls, processSubdomains_calls]

/-! ## Mode selection -/

/-- C2 at the failing input: with Stdin set and the wordlist `/w.txt` configured (no
subdomain list), every call succeeding and nothing logged, runEnumeration enters
processDomain, processSubdomains and then processDomain a second time, which leaves
a second, identical bruteforce file; the claim allows the first two only. -/
theorem runEnumeration_stdin_wordlist_not_two :
    stdinWordlistRunner.options.Stdin = true ∧ stdinWordlistRunner.options.Wordlist ≠ "" ∧
    stdinWordlistRunner.options.SubdomainsList = "" ∧
    (runEnumeration stdinWordlistRunner sampleWorld).2.calls
      = [Strategy.bruteforce, Strategy.capture, Strategy.bruteforce] ∧
    (runEnumeration stdinWordlistRunner sampleWorld).2.calls
      ≠ [Strategy.bruteforce, Strategy.capture] ∧
    (runEnumeration stdinWordlistRunner sampleWorld).2.log = [] ∧
    (runEnumeration stdinWordlistRunner sampleWorld).2.fs "/tmp/shuffledns0/xid1"
      = some (Node.file "dev.example.comwww.example.com") ∧
    (runEnumeration stdinWordlistRunner sampleWorld).2.fs "/tmp/shuffledns0/xid2"
      = some (Node.file "a.example.com\nb.example.com\n") ∧
    (runEnumeration stdinWordlistRunner sampleWorld).2.fs "/tmp/shuffledns0/xid3"
      = some (Node.file "dev.example.comwww.example.com") := by
  decide

/-- C3 (as amended): with Stdin not set, no wordlist and no subdomain list,
runEnumeration enters no staging strategy, leaves the environment as it was and
returns no error. -/
theorem runEnumeration_idle (r : Runner) (w : World)
    (hs : r.options.Stdin = false) (hw : r.options.Wordlist = "")
    (hl : r.options.SubdomainsList = "") :
    runEnumeration r w = (none, w) := by
  simp [runEnumeration, configured, hs, hw, hl]

theorem runEnumeration_idle_witness :
    runEnumeration idleRunner sampleWorld = (none, sampleWorld) :=
  runEnumeration_idle idleRunner sampleWorld (by decide) (by decide) (by decide)

/-- C3 (as stated) fails: with nothing configured the run is not rejected, the
result of runEnumeration is nil and nothing is logged. -/
theorem runEnumeration_idle_not_rejected :
    idleRunner.options.Stdin = false ∧ idleRunner.options.Wordlist = "" ∧
    idleRunner.options.SubdomainsList = "" ∧
    (runEnumeration idleRunner sampleWorld).2.calls = [] ∧
    (runEnumeration idleRunner sampleWorld).1 = none ∧
    (runEnumeration idleRunner sampleWorld).2.log = [] := by
  decide

/-- C4 at the failing input: with Stdin set, no wordlist and the subdomain list
`/tmp/known.txt` configured, every call succeeding and nothing logged,
runEnumeration enters processSubdomains twice, both times in its stdin branch: the
first capture holds standard input, the second is an empty file made from the
drained input, and the configured list is never used. The claim allows one capture
into one staging file. -/
theorem runEnumeration_stdin_list_twice :
    stdinListRunner.options.Stdin = true ∧ stdinListRunner.options.Wordlist = "" ∧
    stdinListRunner.options.SubdomainsList = "/tmp/known.txt" ∧
    (runEnumeration stdinListRunner sampleWorld).2.calls
      = [Strategy.capture, Strategy.capture] ∧
    (runEnumeration stdinListRunner sampleWorld).2.calls ≠ [Strategy.capture] ∧
    (runEnumeration stdinListRunner sampleWorld).2.log = [] ∧
    (runEnumeration stdinListRunner sampleWorld).2.fs "/tmp/shuffledns0/xid1"
      = some (Node.file "a.example.com\nb.example.com\n") ∧
    (runEnumeration stdinListRunner sampleWorld).2.fs "/tmp/shuffledns0/xid2"
      = some (Node.file "") := by
  decide

/-- C5: with Stdin not set and exactly one of the subdomain list and the wordlist
configured, runEnumeration enters exactly one strategy, once: processSubdomains in
its non-stdin (reference) branch for the subdomain list, processDomain for the
wordlist. -/
theorem runEnumeration_single_trigger (r : Runner) (w : World)
    (hs : r.options.Stdin = false)
    (hone : (r.options.SubdomainsList ≠ "" ∧ r.options.Wordlist = "")
      ∨ (r.options.SubdomainsList = "" ∧ r.options.Wordlist ≠ "")) :
    (runEnumeration r w).2.calls
      = w.calls ++ [if r.options.SubdomainsList ≠ "" then Strategy.reference
                    else Strategy.bruteforce] := by
  rw [runEnumeration_calls]
  rcases hone with ⟨hl, hw⟩ | ⟨hl, hw⟩ <;> simp [hs, hl, hw]

theorem runEnumeration_single_trigger_witness :
    (runEnumeration listRunner sampleWorld).2.calls = [Strategy.reference] ∧
    (runEnumeration sampleRunner sampleWorld).2.calls = [Strategy.bruteforce] :=
  ⟨runEnumeration_single_trigger listRunner sampleWorld (by decide) (Or.inl (by decide)),
   runEnumeration_single_trigger sampleRunner sampleWorld (by decide) (Or.inr (by decide))⟩

/-! ## Bruteforce staging -/

theorem scanLoop_filter (domain : String) (lines : List String) (writer : String) :
    scanLoop domain (lines.filter (fun t => t ≠ "")) writer = scanLoop domain lines writer := by
  induction lines generalizing writer with
  | nil => rfl
  | cons t rest ih =>
    by_cases ht : t = ""
    · subst ht; simpa [scanLoop] using ih writer
    · simpa [scanLoop, ht] using ih _

theorem scanLoop_all_empty (domain : String) (lines : List String) (writer : String)
    (h : ∀ t ∈ lines, t = "") : scanLoop domain lines writer = writer := by
  induction lines generalizing writer with
  | nil => rfl
  | cons t rest ih =>
    have ht : t = "" := h t (List.mem_cons_self _ _)
    simp only [scanLoop, ht, if_true]
    exact ih writer (fun u hu => h u (List.mem_cons_of_mem _ hu))

theorem scanLoop_eq_foldl (domain : String) (lines : List String) (writer : String) :
    scanLoop domain lines writer
      = ((lines.filter (fun t => t ≠ "")).map (fun t => t ++ "." ++ domain)).foldl
          (fun acc entry => acc ++ entry) writer := by
  induction lines generalizing writer with
  | nil => rfl
  | cons t rest ih =>
    by_cases ht : t = ""
    · subst ht; simpa [scanLoop] using ih writer
    · simpa [scanLoop, ht] using ih _

theorem processDomain_congr (r : Runner) (w w' : World)
    (hfs : w'.fs = w.fs) (hid : w'.nextId = w.nextId)
    (hlog : w'.log = w.log) (hh : w'.handles = w.handles)
    (hscan : scanLoop r.options.Domain (w'.scans r.options.Wordlist).tokens ""
      = scanLoop r.options.Domain (w.scans r.options.Wordlist).tokens "") :
    (processDomain r w').fs = (processDomain r w).fs ∧
    (processDomain r w').log = (processDomain r w).log ∧
    (processDomain r w').handles = (processDomain r w).handles := by
  unfold processDomain
  simp only [xidNew, enter, osCreate, dirExists, hfs, hid, hlog, hh]
  split_ifs
  · simp [fatalf]
  · simp only [osOpen]
    split_ifs <;> simp [fatalf, fileClose, fileWrite, hscan]
  · simp [fatalf]

theorem processDomain_content (r : Runner) (w : World) (sc : Scanner)
    (hnew : w.fs (pathJoin r.tempDir ("xid" ++ toString w.nextId)) ≠ some Node.dir)
    (hdir : dirExists w (dirOf (pathJoin r.tempDir ("xid" ++ toString w.nextId))) = true)
    (hword : ∃ d, w.fs r.options.Wordlist = some (Node.file d)) :
    (processDomain r (withScan w r.options.Wordlist sc)).fs
        (pathJoin r.tempDir ("xid" ++ toString w.nextId))
      = some (Node.file (scanLoop r.options.Domain sc.tokens "")) := by
  obtain ⟨d, hd⟩ := hword
  unfold processDomain
  simp only [dirExists] at hdir
  simp only [xidNew, enter, osCreate, withScan, dirExists]
  rw [if_neg hnew, if_pos hdir]
  simp only [osOpen]
  split_ifs <;> simp_all [fileWrite, fileClose]

/-- C8: empty wordlist lines contribute nothing, and nothing else is dropped or
trimmed. Whenever processDomain can create its staging file and open the wordlist,
the staging file it leaves holds, in order, the entry `text.domain` of every
non-empty line of the wordlist, the text untrimmed (a line of spaces included), and
nothing for the zero-length lines; the files it leaves are the same for the
wordlist with its zero-length lines removed; and a wordlist of empty lines only
leaves the staging file empty. -/
theorem processDomain_empty_lines (r : Runner) (w : World) (lines : List String)
    (e : Option String)
    (hnew : w.fs (pathJoin r.tempDir ("xid" ++ toString w.nextId)) ≠ some Node.dir)
    (hdir : dirExists w (dirOf (pathJoin r.tempDir ("xid" ++ toString w.nextId))) = true)
    (hword : ∃ d, w.fs r.options.Wordlist = some (Node.file d)) :
    (processDomain r (withScan w r.options.Wordlist ⟨lines, e⟩)).fs
        (pathJoin r.tempDir ("xid" ++ toString w.nextId))
      = some (Node.file (String.join
          ((lines.filter (fun t => t ≠ "")).map (fun t => t ++ "." ++ r.options.Domain))))
    ∧ (processDomain r (withScan w r.options.Wordlist ⟨lines.filter (fun t => t ≠ ""), e⟩)).fs
      = (processDomain r (withScan w r.options.Wordlist ⟨lines, e⟩)).fs
    ∧ ((∀ t ∈ lines, t = "") →
        (processDomain r (withScan w r.options.Wordlist ⟨lines, e⟩)).fs
            (pathJoin r.tempDir ("xid" ++ toString w.nextId))
          = some (Node.file "")) := by
  refine ⟨?_, ?_, ?_⟩
  · rw [processDomain_content r w ⟨lines, e⟩ hnew hdir hword, scanLoop_eq_foldl]
    rfl
  · refine (processDomain_congr r (withScan w r.options.Wordlist ⟨lines, e⟩)
      (withScan w r.options.Wordlist ⟨lines.filter (fun t => t ≠ ""), e⟩) rfl rfl rfl rfl ?_).1
    simpa [withScan] using scanLoop_filter r.options.Domain lines ""
  · intro h
    rw [processDomain_content r w ⟨lines, e⟩ hnew hdir hword]
    simp only [scanLoop_all_empty _ _ _ h]

theorem processDomain_empty_lines_witness :
    sampleRunner.options.Domain = "example.com" ∧
    (processDomain sampleRunner spacesWorld).fs "/tmp/shuffledns0/xid1"
      = some (Node.file " .example.comdev.example.com") :=
  ⟨by decide,
   (processDomain_empty_lines sampleRunner spacesFiles [" ", "", "dev"] none
      (by decide) (by decide) ⟨" \n\ndev\n", by decide⟩).1.trans (by decide)⟩

/-- C1 at the failing input: for the wordlist lines `dev`, the empty line, `www` and
the domain `example.com`, processDomain leaves `dev.example.comwww.example.com` in
the staging file, with no newline after either entry. In general the loop appends
the entries `text.domain` of the non-empty lines one after the other, with nothing
between or after them. -/
theorem processDomain_no_newline :
    (osOpen sampleRunner.options.Wordlist sampleWorld).1
      = some ⟨["dev", "", "www"], none⟩ ∧
    sampleRunner.options.Domain = "example.com" ∧
    (processDomain sampleRunner sampleWorld).fs "/tmp/shuffledns0/xid1"
      = some (Node.file "dev.example.comwww.example.com") ∧
    (processDomain sampleRunner sampleWorld).fs "/tmp/shuffledns0/xid1"
      ≠ some (Node.file "dev.example.com\nwww.example.com\n") ∧
    (∀ (domain : String) (lines : List String),
      scanLoop domain lines ""
        = ((lines.filter (fun t => t ≠ "")).map (fun t => t ++ "." ++ domain)).foldl
            (fun acc entry => acc ++ entry) "") :=
  ⟨by decide, by decide, by decide, by decide,
   fun domain lines => scanLoop_eq_foldl domain lines ""⟩

/-- C6 at the failing input: when the scan of the wordlist stops on an error after
`dev`, processDomain logs nothing, leaves the entries read so far in the staging
file and closes it, exactly as after a complete read; a wordlist that cannot be
opened is logged, and the staging file is closed as well. In general the error of
the scanner has no effect on the files, the log and the open descriptors that
processDomain leaves. -/
theorem processDomain_scan_error_silent :
    (osOpen sampleRunner.options.Wordlist brokenWorld).1
      = some ⟨["dev"], some "bufio.Scanner: token too long"⟩ ∧
    (processDomain sampleRunner brokenWorld).log = [] ∧
    (processDomain sampleRunner brokenWorld).handles = [] ∧
    (processDomain sampleRunner brokenWorld).fs "/tmp/shuffledns0/xid1"
      = some (Node.file "dev.example.com") ∧
    (processDomain missingRunner sampleWorld).log
      = ["Could not read bruteforce wordlist (/missing.txt): "
          ++ "/missing.txt: no such file or directory\n"] ∧
    (processDomain missingRunner sampleWorld).handles = [] ∧
    (∀ (r : Runner) (w : World) (lines : List String) (e : String),
      (processDomain r (withScan w r.options.Wordlist ⟨lines, some e⟩)).fs
        = (processDomain r (withScan w r.options.Wordlist ⟨lines, none⟩)).fs ∧
      (processDomain r (withScan w r.options.Wordlist ⟨lines, some e⟩)).log
        = (processDomain r (withScan w r.options.Wordlist ⟨lines, none⟩)).log ∧
      (processDomain r (withScan w r.options.Wordlist ⟨lines, some e⟩)).handles
        = (processDomain r (withScan w r.options.Wordlist ⟨lines, none⟩)).handles) :=
  ⟨by decide, by decide, by decide, by decide, by decide, by decide,
   fun r w lines e =>
     processDomain_congr r (withScan w r.options.Wordlist ⟨lines, none⟩)
       (withScan w r.options.Wordlist ⟨lines, some e⟩) rfl rfl rfl rfl (by simp [withScan])⟩

/-! ## Passthrough staging -/

/-- C7: with Stdin not set, the staged path of processSubdomains is the configured
subdomain-list path verbatim, and the call creates no file: the file system, the
open descriptors, standard input and the log are as before. -/
theorem processSubdomains_reference (r : Runner) (w : World)
    (hs : r.options.Stdin = false) :
    (processSubdomains r w).1 = r.options.SubdomainsList ∧
    (processSubdomains r w).2.fs = w.fs ∧
    (processSubdomains r w).2.handles = w.handles ∧
    (processSubdomains r w).2.stdin = w.stdin ∧
    (processSubdomains r w).2.log = w.log := by
  simp [processSubdomains, hs, enter]

theorem processSubdomains_reference_witness :
    listRunner.options.Stdin = false ∧
    (processSubdomains listRunner sampleWorld).1 = "/tmp/known.txt" ∧
    (processSubdomains listRunner sampleWorld).2.fs = sampleWorld.fs :=
  ⟨by decide,
   (processSubdomains_reference listRunner sampleWorld (by decide)).1,
   (processSubdomains_reference listRunner sampleWorld (by decide)).2.1⟩

/-! ## Start-up -/

theorem newWorkspace_options (options : Options) (w : World) :
    (newWorkspace options w).options = options := by
  simp only [newWorkspace, ioutilTempDir]
  split_ifs <;> rfl

theorem newWorkspace_probed (options : Options) (w : World) :
    (newWorkspace options w).world.probed = w.probed := by
  simp only [newWorkspace, ioutilTempDir]
  split_ifs <;> rfl

theorem newWorkspace_err (options : Options) (w : World) :
    (newWorkspace options w).err ≠ some errNoMassdns := by
  simp only [newWorkspace, ioutilTempDir]
  split_ifs <;> simp [errNoMassdns]

theorem findBinary_eq (w : World) :
    findBinary w
      = if (w.fs "/usr/bin/massdns").isSome then
          ("/usr/bin/massdns", { w with probed := w.probed ++ ["/usr/bin/massdns"] })
        else if (w.fs "/usr/local/bin/massdns").isSome then
          ("/usr/local/bin/massdns",
            { w with probed := w.probed ++ ["/usr/bin/massdns"] ++ ["/usr/local/bin/massdns"] })
        else
          ("", { w with probed := w.probed ++ ["/usr/bin/massdns"] ++ ["/usr/local/bin/massdns"] }) := by
  unfold findBinary locations
  simp only [findBinaryLoop, osStat]
  split_ifs <;> simp_all [osIsNotExist]

/-- C9: with no massdns path configured, New sets MassdnsPath to the first of the
pre-defined locations that exists, returns the not-found error exactly when none
of them exists, and then has created nothing; with a path configured it probes
nothing and leaves MassdnsPath as it was. -/
theorem New_massdnsPath (options : Options) (w : World) :
    (options.MassdnsPath = "" →
      (New options w).options.MassdnsPath
        = (locations.find? (fun p => (w.fs p).isSome)).getD "" ∧
      ((New options w).err = some errNoMassdns ↔ ∀ p ∈ locations, w.fs p = none) ∧
      ((New options w).err = some errNoMassdns →
        (New options w).runner = none ∧ (New options w).world.fs = w.fs)) ∧
    (options.MassdnsPath ≠ "" →
      (New options w).options.MassdnsPath = options.MassdnsPath ∧
      (New options w).world.probed = w.probed) := by
  constructor
  · intro h
    unfold New
    simp only [h, if_true, findBinary_eq, locations]
    cases h1 : w.fs "/usr/bin/massdns" <;> cases h2 : w.fs "/usr/local/bin/massdns"
      <;> simp [h1, h2, newWorkspace_options, newWorkspace_err]
  · intro h
    unfold New
    simp [h, newWorkspace_options, newWorkspace_probed]

theorem New_examples :
    (New { sampleOptions with MassdnsPath := "" } massdnsWorld).options.MassdnsPath
      = "/usr/local/bin/massdns" ∧
    (New { sampleOptions with MassdnsPath := "" } massdnsWorld).world.probed
      = ["/usr/bin/massdns", "/usr/local/bin/massdns"] ∧
    (New { sampleOptions with MassdnsPath := "" } massdnsWorld).runner
      = some ⟨"/tmp/shuffledns1", { sampleOptions with MassdnsPath := "/usr/local/bin/massdns" }⟩ ∧
    (New { sampleOptions with MassdnsPath := "" } sampleWorld).err = some errNoMassdns ∧
    (New { sampleOptions with MassdnsPath := "" } sampleWorld).world.fs "/tmp/shuffledns1" = none ∧
    (New sampleOptions sampleWorld).world.probed = [] ∧
    (New sampleOptions sampleWorld).world.fs "/tmp/shuffledns1" = some Node.dir := by
  decide

/-! ## Workspace -/

theorem within_pathJoin (dir name : String) (h : dir ≠ "") :
    within dir (pathJoin dir name) = true := by
  simp [within, pathJoin, h]

theorem ne_of_not_within (dir q : String) (h : within dir q = false) : q ≠ dir := by
  intro hq
  simp [within, hq] at h

theorem processDomain_frame (r : Runner) (w : World) (q : String)
    (hq : q ≠ pathJoin r.tempDir ("xid" ++ toString w.nextId)) :
    (processDomain r w).fs q = w.fs q := by
  unfold processDomain
  simp only [xidNew, enter, osCreate, dirExists]
  split_ifs
  · simp [fatalf]
  · simp only [osOpen]
    split_ifs <;> simp only [fatalf, fileClose, fileWrite] <;> split <;> simp_all
  · simp [fatalf]

theorem processSubdomains_frame (r : Runner) (w : World) (q : String)
    (hq : q ≠ pathJoin r.tempDir ("xid" ++ toString w.nextId)) :
    (processSubdomains r w).2.fs q = w.fs q := by
  unfold processSubdomains
  split_ifs
  · simp only [xidNew, enter, osCreate, dirExists]
    split_ifs
    · simp [fatalf]
    · simp only [fatalf, fileClose, fileWrite]
      split <;> simp_all
    · simp [fatalf]
  · simp [enter]

theorem runOps_outside (r : Runner) (hd : r.tempDir ≠ "") (ops : List Op) (w : World)
    (q : String) (hq : within r.tempDir q = false) :
    (runOps r ops w).fs q = w.fs q := by
  induction ops generalizing w with
  | nil => rfl
  | cons op rest ih =>
    have hne : ∀ name, q ≠ pathJoin r.tempDir name := by
      intro name hname
      rw [hname, within_pathJoin _ _ hd] at hq
      exact Bool.noConfusion hq
    cases op with
    | domain =>
      simp only [runOps]
      rw [ih, processDomain_frame _ _ _ (hne _)]
    | subdomains =>
      simp only [runOps]
      rw [ih, processSubdomains_frame _ _ _ (hne _)]

theorem newWorkspace_runner (options : Options) (w : World) (r : Runner)
    (h : (newWorkspace options w).runner = some r) :
    r.tempDir ≠ "" ∧ ∀ q, q ≠ r.tempDir → (newWorkspace options w).world.fs q = w.fs q := by
  simp only [newWorkspace, ioutilTempDir] at h ⊢
  split_ifs at h ⊢ <;> simp at h
  all_goals
    subst h
    refine ⟨?_, ?_⟩
    · intro hempty
      have := congrArg String.data hempty
      simp at this
    · intro q hq
      simp_all

theorem New_runner (options : Options) (w : World) (r : Runner)
    (h : (New options w).runner = some r) :
    r.tempDir ≠ "" ∧ ∀ q, q ≠ r.tempDir → (New options w).world.fs q = w.fs q := by
  unfold New at h ⊢
  simp only [findBinary_eq] at h ⊢
  split_ifs at h ⊢ <;> exact newWorkspace_runner _ _ _ h

theorem Close_inside (r : Runner) (hd : r.tempDir ≠ "") (w : World) (q : String)
    (hq : within r.tempDir q = true) : (Close r w).fs q = none := by
  simp [Close, osRemoveAll, hd, hq]

theorem Close_outside (r : Runner) (w : World) (q : String)
    (hq : within r.tempDir q = false) : (Close r w).fs q = w.fs q := by
  unfold Close osRemoveAll
  split_ifs <;> simp [hq]

/-- C10: for a runner returned by New and any sequence of staging operations run on
it, every path whose node differs from the state before New lies at or under the
workspace directory tempDir; after Close nothing exists at or under tempDir; and
every path outside tempDir holds what it held before New. -/
theorem workspace_confined (options : Options) (w : World) (r : Runner)
    (h : (New options w).runner = some r) (ops : List Op) :
    (∀ q, (runOps r ops (New options w).world).fs q ≠ w.fs q → within r.tempDir q = true) ∧
    (∀ q, within r.tempDir q = true →
      (Close r (runOps r ops (New options w).world)).fs q = none) ∧
    (∀ q, within r.tempDir q = false →
      (Close r (runOps r ops (New options w).world)).fs q = w.fs q) := by
  obtain ⟨hd, hnew⟩ := New_runner options w r h
  have hout : ∀ q, within r.tempDir q = false →
      (runOps r ops (New options w).world).fs q = w.fs q := by
    intro q hq
    rw [runOps_outside r hd ops _ q hq, hnew q (ne_of_not_within _ _ hq)]
  refine ⟨?_, ?_, ?_⟩
  · intro q hq
    by_contra hw
    exact hq (hout q (by simpa using hw))
  · intro q hq
    exact Close_inside r hd _ q hq
  · intro q hq
    rw [Close_outside r _ q hq, hout q hq]

theorem workspace_confined_witness :
    (New sampleOptions sampleWorld).runner = some ⟨"/tmp/shuffledns1", sampleOptions⟩ ∧
    (runOps ⟨"/tmp/shuffledns1", sampleOptions⟩ [Op.domain, Op.subdomains]
        (New sampleOptions sampleWorld).world).fs "/tmp/shuffledns1/xid2"
      = some (Node.file "dev.example.comwww.example.com") ∧
    (Close ⟨"/tmp/shuffledns1", sampleOptions⟩
      (runOps ⟨"/tmp/shuffledns1", sampleOptions⟩ [Op.domain, Op.subdomains]
        (New sampleOptions sampleWorld).world)).fs "/tmp/shuffledns1/xid2" = none ∧
    (Close ⟨"/tmp/shuffledns1", sampleOptions⟩
      (runOps ⟨"/tmp/shuffledns1", sampleOptions⟩ [Op.domain, Op.subdomains]
        (New sampleOptions sampleWorld).world)).fs "/w.txt" = sampleWorld.fs "/w.txt" :=
  ⟨by decide, by decide,
   (workspace_confined sampleOptions sampleWorld ⟨"/tmp/shuffledns1", sampleOptions⟩
      (by decide) [Op.domain, Op.subdomains]).2.1 "/tmp/shuffledns1/xid2" (by decide),
   (workspace_confined sampleOptions sampleWorld ⟨"/tmp/shuffledns1", sampleOptions⟩
      (by decide) [Op.domain, Op.subdomains]).2.2 "/w.txt" (by decide)⟩

end Shuffledns
